import Mathlib

/-!
Verification of the cwinpy hierarchical-inference specification against the
code base.  The hierarchical-inference engine (`cwinpy/hierarchical.py`) is
exercised only through its test suite in this snapshot, so its data model and
operations are modelled from the specification; the plotting facade
(`cwinpy/plot.py`) and the series readers (`cwinpy/iostream/readers.py`) are
embedded directly from their sources.
-/

set_option maxRecDepth 4000

namespace Cwinpy

/-- Python's `str.lower()`: every character lower-cased.  (Defined over the
character list so that it evaluates by kernel reduction.) -/
def strLower (s : String) : String :=
  String.mk (s.data.map Char.toLower)

/-! ## Error taxonomy (spec section 7) -/

/-- Modelled from the spec: the error taxonomy of the hierarchical layer
(`cwinpy/hierarchical.py` is not part of this snapshot).  Construction,
query, data-loading and backend-configuration errors are all fatal and
surfaced to the caller. -/
inductive HierErr where
  | invalidKind
  | invalidBounds
  | unknownHyperparameter
  | invalidHyperparameterType
  | inconsistentModeCount
  | fixedHyperparameterNotAllowed
  | unknownDistributionKind
  | invalidArgumentType
  | invalidDataType
  | invalidRange
  | missingObservable
  | distributionNameMismatch
  | noFreeParameters
  | unknownSampler
  | unknownBandwidthMode
deriving DecidableEq, Repr

/-! ## Extended rationals for truncation bounds -/

/-- Truncation bounds of a distribution may be infinite (the default upper
bound is positive infinity); reals are modelled by rationals. -/
inductive XRat where
  | ninf
  | fin (q : ℚ)
  | inf
deriving DecidableEq, Repr

/-- Strict order on extended rationals, as a boolean test. -/
def XRat.ltb : XRat → XRat → Bool
  | .ninf, .ninf => false
  | .ninf, _ => true
  | .fin _, .ninf => false
  | .fin a, .fin b => decide (a < b)
  | .fin _, .inf => true
  | .inf, _ => false

/-! ## Hyperparameters: fixed values or free-parameter priors -/

/-- Modelled from the spec: a free-parameter placeholder is a prior
specification with its own name and bounds (spec section 3). -/
structure PriorSpec where
  pname : String
  plow : ℚ
  phigh : ℚ
deriving DecidableEq, Repr

/-- Modelled from the spec: a hyperparameter value is either a fixed numeric
value or a free-parameter prior (spec section 9, free/fixed duality). -/
inductive HyperValue where
  | fixed (q : ℚ)
  | free (p : PriorSpec)
deriving DecidableEq, Repr

/-! ## The Distribution data model -/

/-- Modelled from the spec: the closed family of distribution variants
(spec sections 3, 4.1 and 9): the generic base distribution (a kind tag and a
keyed hyperparameter mapping), the bounded Gaussian mixture (arrays of means,
widths and weights), and the exponential distribution (a single free `mu`).
Each carries the observable name and the `low`/`high` truncation bounds. -/
inductive Distribution where
  | base (name : String) (kind : String) (hypers : List (String × HyperValue))
      (low high : XRat)
  | boundedGaussian (name : String) (mus sigmas weights : List HyperValue)
      (low high : XRat)
  | exponential (name : String) (mu : PriorSpec) (low high : XRat)
deriving DecidableEq, Repr

/-- The observable name of a distribution. -/
def Distribution.name : Distribution → String
  | .base n _ _ _ _ => n
  | .boundedGaussian n _ _ _ _ _ => n
  | .exponential n _ _ _ => n

/-- The kind tag of a distribution. -/
def Distribution.kindTag : Distribution → String
  | .base _ k _ _ _ => k
  | .boundedGaussian _ _ _ _ _ _ => "gaussian"
  | .exponential _ _ _ _ => "exponential"

/-- The lower truncation bound. -/
def Distribution.low : Distribution → XRat
  | .base _ _ _ l _ => l
  | .boundedGaussian _ _ _ _ l _ => l
  | .exponential _ _ l _ => l

/-- The upper truncation bound. -/
def Distribution.high : Distribution → XRat
  | .base _ _ _ _ h => h
  | .boundedGaussian _ _ _ _ _ h => h
  | .exponential _ _ _ h => h

/-- The number of mixture modes (zero for non-mixture variants). -/
def Distribution.nmodes : Distribution → Nat
  | .boundedGaussian _ m _ _ _ _ => m.length
  | _ => 0

/-- The weight array of a mixture (empty for non-mixture variants). -/
def Distribution.weightList : Distribution → List HyperValue
  | .boundedGaussian _ _ _ w _ _ => w
  | _ => []

/-- The same distribution renamed: the factory's instance pass-through
produces an alias of the configuration under the new (lower-cased) name. -/
def Distribution.withName (d : Distribution) (n : String) : Distribution :=
  match d with
  | .base _ k hy l h => .base n k hy l h
  | .boundedGaussian _ m s w l h => .boundedGaussian n m s w l h
  | .exponential _ p l h => .exponential n p l h

/-- The free-parameter priors exposed by a distribution, in declaration
order. -/
def Distribution.freePriors : Distribution → List PriorSpec
  | .base _ _ hy _ _ =>
      hy.filterMap (fun kv =>
        match kv.2 with
        | .free p => some p
        | .fixed _ => none)
  | .boundedGaussian _ m s w _ _ =>
      (m ++ s ++ w).filterMap (fun v =>
        match v with
        | .free p => some p
        | .fixed _ => none)
  | .exponential _ p _ _ => [p]

/-! ## Hyperparameter keys -/

/-- Modelled from the spec: hyperparameter component names.  A mixture
exposes the indexed components `mu_i`, `sigma_i`, `weight_i`; other variants
use plain string keys (such as the exponential's `mu`). -/
inductive HyperName where
  | mu (i : Nat)
  | sigma (i : Nat)
  | weight (i : Nat)
  | plain (s : String)
deriving DecidableEq, Repr

/-- Modelled from the spec: keyed hyperparameter lookup.  An unrecognized
key fails with the unknown-hyperparameter error; the key set is fixed at
construction time. -/
def Distribution.getItem : Distribution → HyperName → Except HierErr HyperValue
  | .base _ _ hy _ _, .plain k =>
      match hy.lookup k with
      | some v => .ok v
      | none => .error .unknownHyperparameter
  | .base _ _ _ _ _, _ => .error .unknownHyperparameter
  | .boundedGaussian _ m _ _ _ _, .mu i =>
      match m.get? i with
      | some v => .ok v
      | none => .error .unknownHyperparameter
  | .boundedGaussian _ _ s _ _ _, .sigma i =>
      match s.get? i with
      | some v => .ok v
      | none => .error .unknownHyperparameter
  | .boundedGaussian _ _ _ w _ _, .weight i =>
      match w.get? i with
      | some v => .ok v
      | none => .error .unknownHyperparameter
  | .boundedGaussian _ _ _ _ _ _, .plain _ => .error .unknownHyperparameter
  | .exponential _ p _ _, .plain k =>
      if k = "mu" then .ok (.free p) else .error .unknownHyperparameter
  | .exponential _ _ _ _, _ => .error .unknownHyperparameter

/-! ## Resolution of hyperparameters at a candidate point -/

/-- Modelled from the spec: each hyperparameter is looked up either in the
supplied mapping (if declared free, keyed by the prior's own name) or taken
from its stored fixed value; an absent free hyperparameter is the
unknown-hyperparameter query error (spec section 4.1). -/
def resolveHyper (vals : List (String × ℚ)) : HyperValue → Except HierErr ℚ
  | .fixed q => .ok q
  | .free p =>
      match vals.lookup p.pname with
      | some q => .ok q
      | none => .error .unknownHyperparameter

/-- Whether a hyperparameter can be resolved against the supplied mapping:
fixed values always can, free ones only when the mapping names them. -/
def isResolvable (vals : List (String × ℚ)) : HyperValue → Bool
  | .fixed _ => true
  | .free p => (vals.lookup p.pname).isSome

/-- Error-propagating map over a list (the embedding of a Python loop whose
body may raise). -/
def mapE (f : α → Except ε β) : List α → Except ε (List β)
  | [] => .ok []
  | a :: as => do
      let b ← f a
      let bs ← mapE f as
      pure (b :: bs)

/-- Whether an observable value lies outside the `[low, high]` truncation
interval. -/
def outOfBounds (low high : XRat) (x : ℚ) : Bool :=
  XRat.ltb (.fin x) low || XRat.ltb high (.fin x)

/-- Index-named parameter values for a resolved mixture component array. -/
def namedParams (tag : String) (qs : List ℚ) : List (String × ℚ) :=
  qs.enum.map (fun iq => (tag ++ toString iq.1, iq.2))

/-- A fully resolved density query: the kind, the resolved numeric
hyperparameters and the truncation bounds.  The actual real-valued density is
an opaque transcendental quantity; the model records the resolved query. -/
structure ResolvedDist where
  kind : String
  params : List (String × ℚ)
  low : XRat
  high : XRat
deriving DecidableEq, Repr

/-- The value of a log-density query: negative infinity outside the
truncation interval, the not-yet-queryable NaN sentinel, or the (finite)
log-density of a resolved distribution at a point. -/
inductive ExtVal where
  | negInf
  | nan
  | density (d : ResolvedDist) (x : ℚ)
deriving DecidableEq, Repr

/-- Modelled from the spec: `log_pdf(hyperparameter_values, value)`
(spec section 4.1).  Hyperparameters are resolved first (an absent free
hyperparameter raises the unknown-hyperparameter error); values outside
`[low, high]` give negative infinity; otherwise the truncated log-density at
the value.  The generic base distribution, when no hyperparameters are
resolvable, returns the NaN sentinel by convention rather than raising. -/
def Distribution.log_pdf : Distribution → List (String × ℚ) → ℚ → Except HierErr ExtVal
  | .base _ kind hypers low high, vals, x =>
      if hypers.all (fun kv => !(isResolvable vals kv.2)) then .ok .nan
      else do
        let rs ← mapE (fun kv => do
            let q ← resolveHyper vals kv.2
            pure (kv.1, q)) hypers
        pure (if outOfBounds low high x then .negInf
              else .density ⟨kind, rs, low, high⟩ x)
  | .boundedGaussian _ mus sigmas weights low high, vals, x => do
      let rm ← mapE (resolveHyper vals) mus
      let rs ← mapE (resolveHyper vals) sigmas
      let rw ← mapE (resolveHyper vals) weights
      pure (if outOfBounds low high x then .negInf
            else .density ⟨"gaussian",
              namedParams "mu" rm ++ namedParams "sigma" rs ++
                namedParams "weight" rw, low, high⟩ x)
  | .exponential _ p low high, vals, x => do
      let rmu ← resolveHyper vals (.free p)
      pure (if outOfBounds low high x then .negInf
            else .density ⟨"exponential", [("mu", rmu)], low, high⟩ x)

/-- Modelled from the spec: `sample(hyperparameter_values)` draws one value
from the resolved truncated density (spec section 4.1); the draw itself is an
opaque random quantity, recorded as the resolved distribution.  When the
hyperparameters cannot be resolved the designed null sentinel is returned,
not an error. -/
def Distribution.sample : Distribution → List (String × ℚ) → Except HierErr (Option ResolvedDist)
  | .base _ kind hypers low high, vals =>
      if hypers.all (fun kv => !(isResolvable vals kv.2)) then .ok none
      else do
        let rs ← mapE (fun kv => do
            let q ← resolveHyper vals kv.2
            pure (kv.1, q)) hypers
        pure (some ⟨kind, rs, low, high⟩)
  | .boundedGaussian _ mus sigmas weights low high, vals => do
      let rm ← mapE (resolveHyper vals) mus
      let rs ← mapE (resolveHyper vals) sigmas
      let rw ← mapE (resolveHyper vals) weights
      pure (some ⟨"gaussian",
        namedParams "mu" rm ++ namedParams "sigma" rs ++
          namedParams "weight" rw, low, high⟩)
  | .exponential _ p low high, vals => do
      let rmu ← resolveHyper vals (.free p)
      pure (some ⟨"exponential", [("mu", rmu)], low, high⟩)

/-! ## Construction arguments and variant constructors -/

/-- Modelled from the spec: a dynamically typed construction argument, as
received by the Python-level constructors — a scalar, a free-parameter prior
object, a list of either, a string, an omitted (`None`) argument, or an
existing distribution instance (spec sections 4.1 and 4.2). -/
inductive PyVal where
  | num (q : ℚ)
  | prior (p : PriorSpec)
  | plist (l : List PyVal)
  | pstr (s : String)
  | pnone
  | pdist (d : Distribution)

/-- A single mixture-array element must be a scalar or a prior object;
anything else is the invalid-hyperparameter-type construction error. -/
def toHyper : PyVal → Except HierErr HyperValue
  | .num q => .ok (.fixed q)
  | .prior p => .ok (.free p)
  | _ => .error .invalidHyperparameterType

/-- A mixture-array argument must be a list of scalars or priors. -/
def toHyperList : PyVal → Except HierErr (List HyperValue)
  | .plist l => mapE toHyper l
  | _ => .error .invalidHyperparameterType

/-- An omitted mixture-array argument behaves as the empty array. -/
def toHyperListD : PyVal → Except HierErr (List HyperValue)
  | .pnone => .ok []
  | v => toHyperList v

/-- The embedding of a fixed hyperparameter value into a construction
argument. -/
def hvToPy : HyperValue → PyVal
  | .fixed q => .num q
  | .free p => .prior p

/-- A hyperparameter array as a construction argument. -/
def hvListToPy (l : List HyperValue) : PyVal :=
  .plist (l.map hvToPy)

/-- The weights argument of the mixture constructor: when omitted, every
weight defaults to 1 (one per mode); otherwise it must be a valid
hyperparameter array. -/
def weightsArg (w : PyVal) (nmodes : Nat) : Except HierErr (List HyperValue) :=
  match w with
  | .pnone => .ok (List.replicate nmodes (.fixed 1))
  | w => toHyperList w

/-- Modelled from the spec: the bounded Gaussian mixture constructor
(spec section 4.1, variants).  Array arguments are type-checked first; an
omitted weights array defaults to every weight being 1; a mixture with no
modes, or with mismatched `mus`/`sigmas`/`weights` lengths, is the
inconsistent-mode-count construction error.  The truncation bounds default to
`[0, inf)` and the observable name is stored lower-cased. -/
def BoundedGaussianDistribution (name : String) (mus sigmas weights : PyVal) :
    Except HierErr Distribution := do
  let ml ← toHyperListD mus
  let sl ← toHyperListD sigmas
  let wl ← weightsArg weights ml.length
  if ml.length = 0 then .error .inconsistentModeCount
  else if sl.length ≠ ml.length then .error .inconsistentModeCount
  else if wl.length ≠ ml.length then .error .inconsistentModeCount
  else pure (.boundedGaussian (strLower name) ml sl wl (.fin 0) .inf)

/-- Modelled from the spec: the exponential distribution constructor
(spec section 4.1, variants).  Its single hyperparameter `mu` must be a
free-parameter prior object; a fixed scalar is rejected with the
fixed-hyperparameter-not-allowed construction error. -/
def ExponentialDistribution (name : String) (mu : PyVal) :
    Except HierErr Distribution :=
  match mu with
  | .prior p => .ok (.exponential (strLower name) p (.fin 0) .inf)
  | .num _ => .error .fixedHyperparameterNotAllowed
  | _ => .error .invalidHyperparameterType

/-- Modelled from the spec: the distribution factory (spec section 4.2).
An existing instance is passed through under the new name; a kind name
dispatches (case-insensitively) to the matching variant constructor with the
keyword mapping; an unrecognized kind name or a non-kind argument fails. -/
def create_distribution (name : String) (distribution : PyVal)
    (kwargs : List (String × PyVal)) : Except HierErr Distribution :=
  match distribution with
  | .pdist d => .ok (d.withName (strLower name))
  | .pstr kind =>
      let k := strLower kind
      if k = "gaussian" then
        BoundedGaussianDistribution name ((kwargs.lookup "mus").getD .pnone)
          ((kwargs.lookup "sigmas").getD .pnone)
          ((kwargs.lookup "weights").getD .pnone)
      else if k = "exponential" then
        ExponentialDistribution name ((kwargs.lookup "mu").getD .pnone)
      else .error .unknownDistributionKind
  | _ => .error .invalidArgumentType

/-! ## The hierarchical model -/

/-- A per-source posterior sample collection: named columns of
equally-weighted posterior draws. -/
abbrev SampleTable := List (String × List ℚ)

/-- The required observable column of a source table; its absence is the
fatal missing-observable error. -/
def q22Column (t : SampleTable) : Except HierErr (List ℚ) :=
  match List.lookup "Q22" t with
  | some col => .ok col
  | none => .error .missingObservable

/-- The symbolic value of the hyper-log-likelihood: expressions built from
log-density values by exponentiation, logarithm, Monte-Carlo averaging and
summation.  The underlying real arithmetic is opaque. -/
inductive RExpr where
  | ofVal (v : ExtVal)
  | exp (e : RExpr)
  | log (e : RExpr)
  | mean (es : List RExpr)
  | sum (es : List RExpr)

/-- Modelled from the spec: the state owned by the hierarchical model
(spec section 3): the per-source observable samples (read-only), the
population distribution (owned exclusively) and the backend configuration. -/
structure MassQuadrupoleDistribution where
  sources : List (List ℚ)
  distribution : Distribution
  sampler : String
  bw : PyVal

/-- Modelled from the spec: hierarchical-model construction
(spec section 4.3).  A supplied `q22range` must be exactly two increasing
bounds; every source table must contain the `Q22` observable column (a
missing column is fatal for the whole construction); the distribution's name
must be the domain-fixed observable identifier and must expose at least one
free hyperparameter; a supplied sampler or KDE bandwidth mode must belong to
its fixed enumeration. -/
def MassQuadrupoleDistribution.build (data : List SampleTable)
    (distribution : Distribution) (q22range : Option (List ℚ))
    (sampler : Option String) (bw : Option PyVal) :
    Except HierErr MassQuadrupoleDistribution := do
  match q22range with
  | some r =>
      match r with
      | [a, b] => if a < b then pure () else throw .invalidRange
      | _ => throw .invalidRange
  | none => pure ()
  let srcs ← mapE q22Column data
  if strLower distribution.name ≠ "q22" then throw .distributionNameMismatch
  if distribution.freePriors.isEmpty then throw .noFreeParameters
  let smp := sampler.getD "dynesty"
  if !(["dynesty", "nestle", "cpnest"].contains smp) then throw .unknownSampler
  let bwv := bw.getD (.pstr "scott")
  match bwv with
  | .pstr s =>
      if s = "scott" ∨ s = "silverman" then pure ()
      else throw .unknownBandwidthMode
  | .num _ => pure ()
  | _ => throw .unknownBandwidthMode
  pure ⟨srcs, distribution, smp, bwv⟩

/-- Modelled from the spec: the hyper-log-likelihood (spec section 4.3).
At a candidate hyperparameter point, for each source the density
`exp(log_pdf)` is Monte-Carlo averaged over that source's own posterior
draws, the logarithm is taken, and the per-source terms are summed. -/
def MassQuadrupoleDistribution.loglikelihood (m : MassQuadrupoleDistribution)
    (vals : List (String × ℚ)) : Except HierErr RExpr := do
  let per ← mapE (fun samps => do
      let ts ← mapE (fun v => m.distribution.log_pdf vals v) samps
      pure (RExpr.log (RExpr.mean (ts.map (fun t => RExpr.exp (RExpr.ofVal t))))))
    m.sources
  pure (RExpr.sum per)

/-- Modelled from the spec: `sample()` hands the hyper-log-likelihood
function and the free-hyperparameter priors to the configured nested-sampling
backend (an opaque external capability) together with the runtime options,
and returns the backend's posterior-sample result object. -/
def MassQuadrupoleDistribution.sample {σ ρ : Type} (m : MassQuadrupoleDistribution)
    (backend : (List (String × ℚ) → Except HierErr RExpr) → List PriorSpec → σ → ρ)
    (opts : σ) : ρ :=
  backend m.loglikelihood m.distribution.freePriors opts

/-! ## Embedding of `cwinpy/plot.py` -/

/-- Python exception classes raised by the embedded code. -/
inductive PyErr where
  | typeError
  | valueError
  | keyError
  | indexError
  | ioError
deriving DecidableEq, Repr

/-- A Python runtime value as manipulated by `Plot`: a string, a list, a
string-keyed dictionary, or an un-called bound method object (the result of
accessing a method attribute such as `dict.values` without calling it). -/
inductive PyObj where
  | pystr (s : String)
  | pylist (l : List PyObj)
  | pydict (d : List (String × PyObj))
  | pymethod (receiver : PyObj)

/-- Python iteration (what `list(x)` materializes): lists yield their
elements, dictionaries their keys, strings their characters; a bound method
object is not iterable and raises `TypeError`. -/
def pyIter : PyObj → Except PyErr (List PyObj)
  | .pylist l => .ok l
  | .pydict d => .ok (d.map (fun kv => .pystr kv.1))
  | .pystr s => .ok (s.toList.map (fun c => .pystr (String.mk [c])))
  | .pymethod _ => .error .typeError

/-- Calling `.values()` on a dictionary yields its values; on anything else
it is a type error. -/
def valuesCall : PyObj → Except PyErr (List PyObj)
  | .pydict d => .ok (d.map (fun kv => kv.2))
  | _ => .error .typeError

/-- A Python list whose elements are used as strings. -/
def asStrListL (l : List PyObj) : Except PyErr (List String) :=
  mapE (fun x =>
    match x with
    | PyObj.pystr s => Except.ok s
    | _ => Except.error PyErr.typeError) l

/-- A Python value used as a list of strings. -/
def asStrList : PyObj → Except PyErr (List String)
  | .pylist l => asStrListL l
  | _ => .error .typeError

/-- The argument of `Plot._parse_result` (`plot.py` lines 185-206): either an
already-loaded `Grid`/`Result` object, or any other value (typically a file
path) that must go through the registered parsers. -/
inductive ResultInput (α β : Type) where
  | loaded (r : β)
  | other (v : α)

/-- `Plot._parse_result` (`plot.py` lines 185-206): an already-loaded
`Grid` or `Result` object is returned unchanged; otherwise each registered
parser (`read_in_result`, `Grid.read`, `lalinference_to_bilby_result`) is
tried in turn, any raised exception moving on to the next; the first
accepted parse is returned, and if none accepts, `IOError` is raised.  A
parser is modelled as a function returning `none` when it raises. -/
def Plot.parse_result {α β : Type}
    (read_in_result gridRead lalinference_to_bilby_result : α → Option β) :
    ResultInput α β → Except PyErr β
  | .loaded r => .ok r
  | .other v =>
      match ([read_in_result, gridRead, lalinference_to_bilby_result]).findSome?
          (fun f => f v) with
      | some r => .ok r
      | none => .error .ioError

/-- The `Plot.parameters` setter (`plot.py` lines 216-248), run by
`Plot.__init__` after the results setter has stored the per-result parameter
lists in `self._results_parameters`.  When `parameters` is `None` the code
evaluates `list(self._results_parameters.values)[0]`: the `values` attribute
is accessed without being called, so the bound method object itself is handed
to `list`.  Otherwise a string or list argument is lower-cased and checked
for availability in every result.  Returns the pair
(`self._parameters`, `self._num_parameters`). -/
def Plot.parameters_setter (results_parameters : List (String × PyObj))
    (parameters : Option PyObj) : Except PyErr (List String × Nat) := do
  let checkparams ←
    match parameters with
    | none => do
        let vlist ← pyIter (PyObj.pymethod (PyObj.pydict results_parameters))
        let cp0 ← match vlist.get? 0 with
          | some v => Except.ok v
          | none => Except.error PyErr.indexError
        let cp0s ← asStrList cp0
        let vals ← valuesCall (PyObj.pydict results_parameters)
        let valsS ← mapE asStrList vals
        if valsS.all (fun params => params = cp0s) then Except.ok cp0s
        else Except.error PyErr.valueError
    | some p => do
        let cp ← match p with
          | PyObj.pystr s => Except.ok [s]
          | PyObj.pylist l => asStrListL l
          | _ => Except.error PyErr.typeError
        let cp := cp.map strLower
        let vals ← valuesCall (PyObj.pydict results_parameters)
        let valsS ← mapE asStrList vals
        if valsS.all (fun params => cp.all (fun c => params.contains c)) then
          Except.ok cp
        else Except.error PyErr.valueError
  pure (checkparams, checkparams.length)

/-! ## Embedding of `cwinpy/iostream/readers.py` -/

/-- The keyword arguments of the series readers: only the `comments`
delimiter list is inspected by the reader itself (defaulting to `%` and `#`);
everything else is forwarded opaquely to `loadtxt` as part of this value. -/
structure LoadKwargs where
  comments : Option (List Char)

/-- The external collaborators of a series reader: `numpy.loadtxt` over the
input and keyword arguments, the array accessors used by the reader
(`shape[1]`, `data[:, 0]`, `data[:, 1:]`), the `array_type` constructor, and
the text lines obtained from opening the file plainly or gzipped. -/
structure IoEnv (Arr Series : Type) where
  loadtxt : String → LoadKwargs → Arr
  shape1 : Arr → Nat
  timesCol : Arr → Arr
  dataCols : Arr → Arr
  mkSeries : Arr → Arr → String → Series
  gzLines : String → List String
  plainLines : String → List String

/-- `line.strip()[0]`: the first character of the whitespace-trimmed line;
indexing an empty string raises `IndexError`. -/
def firstCharOf (line : String) : Except PyErr Char :=
  match line.trim.toList with
  | [] => .error .indexError
  | c :: _ => .ok c

/-- `line.strip(c)`: the line with every leading and trailing occurrence of
the character removed. -/
def stripCharEnds (c : Char) (s : String) : String :=
  String.mk (((s.toList.dropWhile (· == c)).reverse.dropWhile (· == c)).reverse)

/-- One iteration of the comment-scraping loop of the readers: take the first
character of the stripped line and, when it is a comment delimiter, append
the line stripped of the delimiter and of whitespace to the accumulated
comments. -/
def scrapeLine (commentstrs : List Char) (comments : String) (line : String) :
    Except PyErr String := do
  let firstchar ← firstCharOf line
  if commentstrs.contains firstchar then
    pure (comments ++ (stripCharEnds firstchar line).trim)
  else
    pure comments

/-- The comment-scraping loop over all lines of the file. -/
def scrapeComments (commentstrs : List Char) (ls : List String) :
    Except PyErr String :=
  ls.foldlM (scrapeLine commentstrs) ""

/-- `read_ascii_series` (`readers.py` lines 11-48): parse the file with
`numpy.loadtxt`, scrape the comment lines (opening with `gzip.open` when the
path ends in `.gz`, plainly otherwise), raise `IOError` when the parsed array
has fewer than two columns, and build the series from the data columns, the
first (times) column and the scraped comments. -/
def read_ascii_series {Arr Series : Type} (env : IoEnv Arr Series)
    (input_ : String) (kwargs : LoadKwargs) : Except PyErr Series := do
  let data := env.loadtxt input_ kwargs
  let commentstrs := kwargs.comments.getD ['%', '#']
  let ls := if input_.endsWith ".gz" then env.gzLines input_
            else env.plainLines input_
  let comments ← scrapeComments commentstrs ls
  if env.shape1 data < 2 then Except.error PyErr.ioError
  else pure (env.mkSeries (env.dataCols data) (env.timesCol data) comments)

/-- `read_hdf5_series` (`readers.py` lines 51-87): the nominally-HDF5 reader;
its body parses the file with `numpy.loadtxt`, scrapes the comment lines
(opening with `gzip.open` when the path ends in `.gz`, plainly otherwise),
raises `IOError` when the parsed array has fewer than two columns, and builds
the series from the data columns, the first (times) column and the scraped
comments. -/
def read_hdf5_series {Arr Series : Type} (env : IoEnv Arr Series)
    (input_ : String) (kwargs : LoadKwargs) : Except PyErr Series := do
  let data := env.loadtxt input_ kwargs
  let commentstrs := kwargs.comments.getD ['%', '#']
  let ls := if input_.endsWith ".gz" then env.gzLines input_
            else env.plainLines input_
  let comments ← scrapeComments commentstrs ls
  if env.shape1 data < 2 then Except.error PyErr.ioError
  else pure (env.mkSeries (env.dataCols data) (env.timesCol data) comments)

/-! ## Helper lemmas -/

/-- Binding a successful `Except` computation applies the continuation. -/
@[simp] theorem ok_bind {ε α β : Type} (a : α) (f : α → Except ε β) :
    (Except.ok a : Except ε α) >>= f = f a := rfl

/-- Binding a failed `Except` computation propagates the error. -/
@[simp] theorem error_bind {ε α β : Type} (e : ε) (f : α → Except ε β) :
    (Except.error e : Except ε α) >>= f = Except.error e := rfl

/-- Mapping an error-free element function over a list collects the plain
map. -/
theorem mapE_ok_map {α β ε : Type} {f : α → Except ε β} {g : α → β}
    (hf : ∀ a, f a = .ok (g a)) (l : List α) : mapE f l = .ok (l.map g) := by
  induction l with
  | nil => rfl
  | cons a as ih => simp [mapE, hf a, ih]

/-- Re-embedding a hyperparameter array round-trips through the
argument-type check. -/
theorem mapE_toHyper_hvToPy (l : List HyperValue) :
    mapE toHyper (l.map hvToPy) = .ok l := by
  induction l with
  | nil => rfl
  | cons a as ih => cases a <;> simp [mapE, toHyper, hvToPy, ih]

/-- An embedded hyperparameter array is accepted unchanged. -/
theorem toHyperListD_hv (l : List HyperValue) :
    toHyperListD (hvListToPy l) = .ok l := by
  simp [toHyperListD, hvListToPy, toHyperList, mapE_toHyper_hvToPy]

/-! ## Claim theorems -/

/-- C9: `read_ascii_series` and `read_hdf5_series` are extensionally equal —
for every collaborator environment (covering the input path's parsed array,
the array type and the file's text lines) and every keyword arguments value,
the two readers perform the identical computation; the nominally HDF5 reader
never performs HDF5-specific reading. -/
theorem read_series_extensionally_equal {Arr Series : Type}
    (env : IoEnv Arr Series) (input_ : String) (kwargs : LoadKwargs) :
    read_ascii_series env input_ kwargs = read_hdf5_series env input_ kwargs :=
  rfl

/-- C10: for every stored per-result parameter mapping (i.e. every valid
results input), the `Plot.parameters` setter invoked with `parameters = None`
— the documented plot-all-parameters default — raises `TypeError`, because it
evaluates `list(self._results_parameters.values)[0]` over the un-called
`values` method object; the plot-all path is never reachable. -/
theorem plot_parameters_none_raises_type_error
    (results_parameters : List (String × PyObj)) :
    Plot.parameters_setter results_parameters none = .error .typeError :=
  rfl

/-- C5: constructing an `ExponentialDistribution` whose `mu` is a fixed
scalar always fails at construction with the
fixed-hyperparameter-not-allowed error; construction with a prior object for
`mu` succeeds. -/
theorem exponential_fixed_mu_rejected :
    (∀ (name : String) (q : ℚ),
        ExponentialDistribution name (.num q) = .error .fixedHyperparameterNotAllowed)
    ∧ (∀ (name : String) (p : PriorSpec),
        ExponentialDistribution name (.prior p)
          = .ok (.exponential (strLower name) p (.fin 0) .inf)) :=
  ⟨fun _ _ => rfl, fun _ _ => rfl⟩

/-- C8: `Plot._parse_result` returns an already-loaded result or grid object
unchanged; for any other input it raises the unrecognized-format `IOError`
exactly when every registered parser (the bilby result reader, the grid
reader and the LALInference converter) rejects it, and whenever some parser
accepts, the first accepting parser's parse is returned. -/
theorem parse_result_unrecognized_format {α β : Type} (p1 p2 p3 : α → Option β) :
    (∀ r : β, Plot.parse_result p1 p2 p3 (.loaded r) = .ok r)
    ∧ (∀ v : α, Plot.parse_result p1 p2 p3 (.other v) = .error .ioError ↔
        (p1 v = none ∧ p2 v = none ∧ p3 v = none))
    ∧ (∀ (v : α) (r : β), p1 v = some r →
        Plot.parse_result p1 p2 p3 (.other v) = .ok r)
    ∧ (∀ (v : α) (r : β), p1 v = none → p2 v = some r →
        Plot.parse_result p1 p2 p3 (.other v) = .ok r)
    ∧ (∀ (v : α) (r : β), p1 v = none → p2 v = none → p3 v = some r →
        Plot.parse_result p1 p2 p3 (.other v) = .ok r) := by
  refine ⟨fun r => rfl, ?_, ?_, ?_, ?_⟩
  · intro v
    cases h1 : p1 v <;> cases h2 : p2 v <;> cases h3 : p3 v <;>
      simp [Plot.parse_result, List.findSome?, h1, h2, h3]
  · intro v r h1
    simp [Plot.parse_result, List.findSome?, h1]
  · intro v r h1 h2
    simp [Plot.parse_result, List.findSome?, h1, h2]
  · intro v r h1 h2 h3
    simp [Plot.parse_result, List.findSome?, h1, h2, h3]

/-- A concrete first parser for the witness below. -/
def acceptAtZero : Nat → Option Nat := fun n => if n = 0 then some 10 else none

/-- A concrete second parser for the witness below. -/
def acceptAtOne : Nat → Option Nat := fun n => if n = 1 then some 20 else none

/-- A concrete third parser for the witness below. -/
def acceptAtTwo : Nat → Option Nat := fun n => if n = 2 then some 30 else none

/-- Witness: the parse-result dispatch evaluated at concrete parsers — a
loaded object passes through, an input no parser accepts raises, and an input
the second parser accepts returns its parse. -/
theorem parse_result_unrecognized_format_witness :
    Plot.parse_result acceptAtZero acceptAtOne acceptAtTwo (.loaded 7) = .ok 7
    ∧ Plot.parse_result acceptAtZero acceptAtOne acceptAtTwo (.other 5) = .error .ioError
    ∧ Plot.parse_result acceptAtZero acceptAtOne acceptAtTwo (.other 1) = .ok 20 :=
  ⟨(parse_result_unrecognized_format acceptAtZero acceptAtOne acceptAtTwo).1 7,
   ((parse_result_unrecognized_format acceptAtZero acceptAtOne acceptAtTwo).2.1 5).mpr
     ⟨rfl, rfl, rfl⟩,
   (parse_result_unrecognized_format acceptAtZero acceptAtOne acceptAtTwo).2.2.2.1 1 20
     rfl rfl⟩

/-- C2: for every distribution of every valid kind (bounded Gaussian mixture
or exponential) whose hyperparameters fully resolve against the supplied
mapping, `log_pdf` returns negative infinity whenever the observable value
lies outside the `[low, high]` truncation interval. -/
theorem log_pdf_outside_bounds_neg_inf :
    (∀ (name : String) (mus sigmas weights : List HyperValue) (low high : XRat)
        (vals : List (String × ℚ)) (x : ℚ) (rm rs rw : List ℚ),
        mapE (resolveHyper vals) mus = .ok rm →
        mapE (resolveHyper vals) sigmas = .ok rs →
        mapE (resolveHyper vals) weights = .ok rw →
        outOfBounds low high x = true →
        (Distribution.boundedGaussian name mus sigmas weights low high).log_pdf vals x
          = .ok .negInf)
    ∧ (∀ (name : String) (p : PriorSpec) (low high : XRat)
        (vals : List (String × ℚ)) (x : ℚ) (rmu : ℚ),
        resolveHyper vals (.free p) = .ok rmu →
        outOfBounds low high x = true →
        (Distribution.exponential name p low high).log_pdf vals x = .ok .negInf) := by
  constructor
  · intro name mus sigmas weights low high vals x rm rs rw hm hs hw hout
    simp [Distribution.log_pdf, hm, hs, hw, hout]
  · intro name p low high vals x rmu hmu hout
    simp [Distribution.log_pdf, hmu, hout]

/-- Witness: the spec scenario — an exponential distribution over `[0, inf)`
with a free `mu` prior, queried at `mu = 1/2` and observable value `-1`,
gives negative infinity. -/
theorem log_pdf_outside_bounds_neg_inf_witness :
    (Distribution.exponential "test" ⟨"mu", 0, 1⟩ (.fin 0) .inf).log_pdf
        [("mu", 1/2)] (-1) = .ok .negInf :=
  log_pdf_outside_bounds_neg_inf.2 "test" ⟨"mu", 0, 1⟩ (.fin 0) .inf
    [("mu", 1/2)] (-1) (1/2) rfl (by decide)

/-- C3: for every generic (base) distribution none of whose hyperparameters
is resolvable — queried with an empty mapping and carrying no usable fixed
defaults — `log_pdf` returns the NaN sentinel and `sample` returns the null
sentinel; neither call raises an error, and the NaN sentinel is distinct
from the zero-probability value (negative infinity). -/
theorem base_unresolvable_nan_null (name kind : String)
    (hypers : List (String × HyperValue)) (low high : XRat) (x : ℚ)
    (h : ∀ kv ∈ hypers, isResolvable [] kv.2 = false) :
    (Distribution.base name kind hypers low high).log_pdf [] x = .ok .nan
    ∧ (Distribution.base name kind hypers low high).sample [] = .ok none
    ∧ ExtVal.nan ≠ ExtVal.negInf := by
  have hall : hypers.all (fun kv => !(isResolvable [] kv.2)) = true := by
    rw [List.all_eq_true]
    intro kv hkv
    rw [h kv hkv]
    rfl
  refine ⟨?_, ?_, by simp⟩
  · simp [Distribution.log_pdf, hall]
  · simp [Distribution.sample, hall]

/-- Witness: a base distribution with a single free hyperparameter, queried
with the empty mapping, yields the NaN and null sentinels. -/
theorem base_unresolvable_nan_null_witness :
    (Distribution.base "test" "exponential" [("mu", .free ⟨"mu", 0, 1⟩)]
        (.fin 0) .inf).log_pdf [] 0 = .ok .nan
    ∧ (Distribution.base "test" "exponential" [("mu", .free ⟨"mu", 0, 1⟩)]
        (.fin 0) .inf).sample [] = .ok none
    ∧ ExtVal.nan ≠ ExtVal.negInf :=
  base_unresolvable_nan_null "test" "exponential" [("mu", .free ⟨"mu", 0, 1⟩)]
    (.fin 0) .inf 0 (by decide)

/-- `pure` on `Except` is a successful value. -/
@[simp] theorem pure_eq_ok {ε α : Type} (a : α) :
    (pure a : Except ε α) = .ok a := rfl

/-- Mismatched mean and width arrays make the bounded Gaussian constructor
fail, whatever weights argument accompanies them. -/
theorem bgd_mismatch_fails (name : String) (mus sigmas : List HyperValue)
    (weights : PyVal) (hne : mus.length ≠ sigmas.length) :
    ∃ e, BoundedGaussianDistribution name (hvListToPy mus) (hvListToPy sigmas)
      weights = .error e := by
  have hne' : sigmas.length ≠ mus.length := fun h => hne h.symm
  unfold BoundedGaussianDistribution
  simp only [toHyperListD_hv, ok_bind]
  rcases hw : weightsArg weights mus.length with e | wl
  · exact ⟨e, by simp [hw]⟩
  · by_cases h0 : mus.length = 0
    · exact ⟨.inconsistentModeCount, by simp [hw, h0]⟩
    · exact ⟨.inconsistentModeCount, by simp [hw, h0, hne']⟩

/-- Matched mean and width arrays with the weights argument omitted build
the mixture, with every weight defaulted to 1. -/
theorem bgd_ok (name : String) (mus sigmas : List HyperValue)
    (hlen : sigmas.length = mus.length) (h0 : mus.length ≠ 0) :
    BoundedGaussianDistribution name (hvListToPy mus) (hvListToPy sigmas) .pnone
      = .ok (.boundedGaussian (strLower name) mus sigmas
          (List.replicate mus.length (.fixed 1)) (.fin 0) .inf) := by
  unfold BoundedGaussianDistribution
  simp only [toHyperListD_hv, ok_bind]
  simp [weightsArg, hlen, h0]

/-- C4: constructing a `BoundedGaussianDistribution` with `mus` and `sigmas`
arrays of different lengths always fails; with matched-length arrays and the
weights omitted, construction succeeds with `nmodes` equal to the common
length and every weight defaulted to 1. -/
theorem bounded_gaussian_mode_count :
    (∀ (name : String) (mus sigmas : List HyperValue) (weights : PyVal),
        mus.length ≠ sigmas.length →
        ∃ e, BoundedGaussianDistribution name (hvListToPy mus) (hvListToPy sigmas)
          weights = .error e)
    ∧ (∀ (name : String) (mus sigmas : List HyperValue),
        sigmas.length = mus.length → mus.length ≠ 0 →
        BoundedGaussianDistribution name (hvListToPy mus) (hvListToPy sigmas) .pnone
          = .ok (.boundedGaussian (strLower name) mus sigmas
              (List.replicate mus.length (.fixed 1)) (.fin 0) .inf)
        ∧ (Distribution.boundedGaussian (strLower name) mus sigmas
            (List.replicate mus.length (.fixed 1)) (.fin 0) .inf).nmodes = mus.length
        ∧ (Distribution.boundedGaussian (strLower name) mus sigmas
            (List.replicate mus.length (.fixed 1)) (.fin 0) .inf).weightList
          = List.replicate mus.length (.fixed 1)) :=
  ⟨bgd_mismatch_fails,
   fun name mus sigmas hlen h0 =>
     ⟨bgd_ok name mus sigmas hlen h0, by simp [Distribution.nmodes], rfl⟩⟩

/-- Witness: the spec scenario — mismatched `[1]`/`[1, 2]` arrays fail, and
`mus = [1, 2]`, `sigmas = [1, 2]` with no weights gives two modes and the
weight array `[1, 1]`. -/
theorem bounded_gaussian_mode_count_witness :
    (∃ e, BoundedGaussianDistribution "test" (hvListToPy [.fixed 1])
        (hvListToPy [.fixed 1, .fixed 2]) .pnone = .error e)
    ∧ BoundedGaussianDistribution "test" (hvListToPy [.fixed 1, .fixed 2])
        (hvListToPy [.fixed 1, .fixed 2]) .pnone
      = .ok (.boundedGaussian "test" [.fixed 1, .fixed 2] [.fixed 1, .fixed 2]
          [.fixed 1, .fixed 1] (.fin 0) .inf)
    ∧ (Distribution.boundedGaussian "test" [.fixed 1, .fixed 2] [.fixed 1, .fixed 2]
        [.fixed 1, .fixed 1] (.fin 0) .inf).nmodes = 2
    ∧ (Distribution.boundedGaussian "test" [.fixed 1, .fixed 2] [.fixed 1, .fixed 2]
        [.fixed 1, .fixed 1] (.fin 0) .inf).weightList = [.fixed 1, .fixed 1] :=
  ⟨bounded_gaussian_mode_count.1 "test" [.fixed 1] [.fixed 1, .fixed 2] .pnone
     (by decide),
   (bounded_gaussian_mode_count.2 "test" [.fixed 1, .fixed 2] [.fixed 1, .fixed 2]
     rfl (by decide)).1,
   (bounded_gaussian_mode_count.2 "test" [.fixed 1, .fixed 2] [.fixed 1, .fixed 2]
     rfl (by decide)).2.1,
   (bounded_gaussian_mode_count.2 "test" [.fixed 1, .fixed 2] [.fixed 1, .fixed 2]
     rfl (by decide)).2.2⟩

/-- An embedded weights array is accepted unchanged by the weights-argument
check. -/
theorem weightsArg_hv (ws : List HyperValue) (n : Nat) :
    weightsArg (hvListToPy ws) n = .ok ws := by
  show toHyperList (hvListToPy ws) = .ok ws
  simp [hvListToPy, toHyperList, mapE_toHyper_hvToPy]

/-- Matched mean, width and weight arrays build the mixture carrying exactly
the supplied arrays. -/
theorem bgd_ok_weights (name : String) (mus sigmas ws : List HyperValue)
    (hlen : sigmas.length = mus.length) (hwlen : ws.length = mus.length)
    (h0 : mus.length ≠ 0) :
    BoundedGaussianDistribution name (hvListToPy mus) (hvListToPy sigmas)
        (hvListToPy ws)
      = .ok (.boundedGaussian (strLower name) mus sigmas ws (.fin 0) .inf) := by
  unfold BoundedGaussianDistribution
  simp only [toHyperListD_hv, ok_bind, weightsArg_hv]
  simp [hlen, hwlen, h0]

/-- C6: for every valid kind name and every hyperparameter mapping — any
keyword list whose `mus`/`sigmas` (and optionally `weights`) entries carry
hyperparameter arrays, or whose `mu` entry carries a prior — the factory
composed with component-wise hyperparameter lookup reproduces the values
passed in the mapping exactly; and the factory applied to an existing
distribution instance returns a distribution of the same variant carrying
the same hyperparameter configuration under the new name. -/
theorem create_distribution_roundtrip :
    (∀ (name kind : String) (kwargs : List (String × PyVal))
        (mus sigmas : List HyperValue),
        strLower kind = "gaussian" →
        kwargs.lookup "mus" = some (hvListToPy mus) →
        kwargs.lookup "sigmas" = some (hvListToPy sigmas) →
        sigmas.length = mus.length → mus.length ≠ 0 →
        ((kwargs.lookup "weights").getD .pnone = .pnone →
          create_distribution name (.pstr kind) kwargs
            = .ok (.boundedGaussian (strLower name) mus sigmas
                (List.replicate mus.length (.fixed 1)) (.fin 0) .inf)
          ∧ (∀ i : Nat, i < mus.length →
              (Distribution.boundedGaussian (strLower name) mus sigmas
                  (List.replicate mus.length (.fixed 1)) (.fin 0) .inf).getItem
                  (.weight i)
                = .ok (.fixed 1)))
        ∧ (∀ ws : List HyperValue,
            kwargs.lookup "weights" = some (hvListToPy ws) →
            ws.length = mus.length →
            create_distribution name (.pstr kind) kwargs
              = .ok (.boundedGaussian (strLower name) mus sigmas ws (.fin 0) .inf)
            ∧ (∀ (i : Nat) (wv : HyperValue), ws[i]? = some wv →
                (Distribution.boundedGaussian (strLower name) mus sigmas ws
                    (.fin 0) .inf).getItem (.weight i) = .ok wv))
        ∧ (∀ (ws : List HyperValue) (i : Nat) (mv : HyperValue),
            mus[i]? = some mv →
            (Distribution.boundedGaussian (strLower name) mus sigmas ws
                (.fin 0) .inf).getItem (.mu i) = .ok mv)
        ∧ (∀ (ws : List HyperValue) (i : Nat) (sv : HyperValue),
            sigmas[i]? = some sv →
            (Distribution.boundedGaussian (strLower name) mus sigmas ws
                (.fin 0) .inf).getItem (.sigma i) = .ok sv))
    ∧ (∀ (name kind : String) (kwargs : List (String × PyVal)) (p : PriorSpec),
        strLower kind = "exponential" →
        kwargs.lookup "mu" = some (.prior p) →
        create_distribution name (.pstr kind) kwargs
          = .ok (.exponential (strLower name) p (.fin 0) .inf)
        ∧ (Distribution.exponential (strLower name) p (.fin 0) .inf).getItem (.plain "mu")
          = .ok (.free p))
    ∧ (∀ (name : String) (d : Distribution) (kwargs : List (String × PyVal)),
        create_distribution name (.pdist d) kwargs = .ok (d.withName (strLower name))
        ∧ (d.withName (strLower name)).kindTag = d.kindTag
        ∧ (∀ k, (d.withName (strLower name)).getItem k = d.getItem k)) := by
  refine ⟨?_, ?_, ?_⟩
  · intro name kind kwargs mus sigmas hk hm hs hlen h0
    refine ⟨?_, ?_, ?_, ?_⟩
    · intro hw
      constructor
      · simp only [create_distribution, hk, hm, hs, hw, if_pos, Option.getD_some]
        simp [bgd_ok name mus sigmas hlen h0]
      · intro i hi
        simp [Distribution.getItem, List.getElem?_replicate_of_lt hi]
    · intro ws hw hwlen
      constructor
      · simp only [create_distribution, hk, hm, hs, hw, if_pos, Option.getD_some]
        simp [bgd_ok_weights name mus sigmas ws hlen hwlen h0]
      · intro i wv hwv
        simp [Distribution.getItem, hwv]
    · intro ws i mv hmv
      simp [Distribution.getItem, hmv]
    · intro ws i sv hsv
      simp [Distribution.getItem, hsv]
  · intro name kind kwargs p hk hm
    constructor
    · simp [create_distribution, hk, hm, ExponentialDistribution]
    · simp [Distribution.getItem]
  · intro name d kwargs
    refine ⟨rfl, by cases d <;> rfl, fun k => by cases d <;> cases k <;> rfl⟩

/-- Witness: the factory round-trips the test's Gaussian keyword mapping,
both with the weights omitted and with a weights array supplied, round-trips
the exponential mapping, and passes an existing instance through. -/
theorem create_distribution_roundtrip_witness :
    create_distribution "test" (.pstr "Gaussian")
        [("mus", hvListToPy [.fixed 1, .fixed 2]),
         ("sigmas", hvListToPy [.fixed 1, .fixed 2])]
      = .ok (.boundedGaussian "test" [.fixed 1, .fixed 2] [.fixed 1, .fixed 2]
          [.fixed 1, .fixed 1] (.fin 0) .inf)
    ∧ (Distribution.boundedGaussian "test" [.fixed 1, .fixed 2] [.fixed 1, .fixed 2]
        [.fixed 1, .fixed 1] (.fin 0) .inf).getItem (.weight 0) = .ok (.fixed 1)
    ∧ create_distribution "test" (.pstr "Gaussian")
        [("mus", hvListToPy [.fixed 1, .fixed 2]),
         ("sigmas", hvListToPy [.fixed 1, .fixed 2]),
         ("weights", hvListToPy [.fixed 3, .fixed 4])]
      = .ok (.boundedGaussian "test" [.fixed 1, .fixed 2] [.fixed 1, .fixed 2]
          [.fixed 3, .fixed 4] (.fin 0) .inf)
    ∧ (Distribution.boundedGaussian "test" [.fixed 1, .fixed 2] [.fixed 1, .fixed 2]
        [.fixed 3, .fixed 4] (.fin 0) .inf).getItem (.weight 1) = .ok (.fixed 4)
    ∧ (Distribution.boundedGaussian "test" [.fixed 1, .fixed 2] [.fixed 1, .fixed 2]
        [.fixed 3, .fixed 4] (.fin 0) .inf).getItem (.mu 0) = .ok (.fixed 1)
    ∧ (Distribution.boundedGaussian "test" [.fixed 1, .fixed 2] [.fixed 1, .fixed 2]
        [.fixed 3, .fixed 4] (.fin 0) .inf).getItem (.sigma 1) = .ok (.fixed 2)
    ∧ create_distribution "test" (.pstr "Exponential") [("mu", .prior ⟨"mu", 0, 1⟩)]
      = .ok (.exponential "test" ⟨"mu", 0, 1⟩ (.fin 0) .inf)
    ∧ create_distribution "test"
        (.pdist (.exponential "test" ⟨"mu", 0, 1⟩ (.fin 0) .inf)) []
      = .ok (.exponential "test" ⟨"mu", 0, 1⟩ (.fin 0) .inf)
    ∧ (Distribution.exponential "test" ⟨"mu", 0, 1⟩ (.fin 0) .inf).getItem (.plain "mu")
      = .ok (.free ⟨"mu", 0, 1⟩) :=
  ⟨((create_distribution_roundtrip.1 "test" "Gaussian"
      [("mus", hvListToPy [.fixed 1, .fixed 2]),
       ("sigmas", hvListToPy [.fixed 1, .fixed 2])]
      [.fixed 1, .fixed 2] [.fixed 1, .fixed 2]
      (by decide) rfl rfl rfl (by decide)).1 rfl).1,
   ((create_distribution_roundtrip.1 "test" "Gaussian"
      [("mus", hvListToPy [.fixed 1, .fixed 2]),
       ("sigmas", hvListToPy [.fixed 1, .fixed 2])]
      [.fixed 1, .fixed 2] [.fixed 1, .fixed 2]
      (by decide) rfl rfl rfl (by decide)).1 rfl).2 0 (by decide),
   ((create_distribution_roundtrip.1 "test" "Gaussian"
      [("mus", hvListToPy [.fixed 1, .fixed 2]),
       ("sigmas", hvListToPy [.fixed 1, .fixed 2]),
       ("weights", hvListToPy [.fixed 3, .fixed 4])]
      [.fixed 1, .fixed 2] [.fixed 1, .fixed 2]
      (by decide) rfl rfl rfl (by decide)).2.1 [.fixed 3, .fixed 4] rfl rfl).1,
   ((create_distribution_roundtrip.1 "test" "Gaussian"
      [("mus", hvListToPy [.fixed 1, .fixed 2]),
       ("sigmas", hvListToPy [.fixed 1, .fixed 2]),
       ("weights", hvListToPy [.fixed 3, .fixed 4])]
      [.fixed 1, .fixed 2] [.fixed 1, .fixed 2]
      (by decide) rfl rfl rfl (by decide)).2.1 [.fixed 3, .fixed 4] rfl rfl).2
     1 (.fixed 4) rfl,
   (create_distribution_roundtrip.1 "test" "Gaussian"
      [("mus", hvListToPy [.fixed 1, .fixed 2]),
       ("sigmas", hvListToPy [.fixed 1, .fixed 2]),
       ("weights", hvListToPy [.fixed 3, .fixed 4])]
      [.fixed 1, .fixed 2] [.fixed 1, .fixed 2]
      (by decide) rfl rfl rfl (by decide)).2.2.1 [.fixed 3, .fixed 4] 0 (.fixed 1) rfl,
   (create_distribution_roundtrip.1 "test" "Gaussian"
      [("mus", hvListToPy [.fixed 1, .fixed 2]),
       ("sigmas", hvListToPy [.fixed 1, .fixed 2]),
       ("weights", hvListToPy [.fixed 3, .fixed 4])]
      [.fixed 1, .fixed 2] [.fixed 1, .fixed 2]
      (by decide) rfl rfl rfl (by decide)).2.2.2 [.fixed 3, .fixed 4] 1 (.fixed 2) rfl,
   (create_distribution_roundtrip.2.1 "test" "Exponential"
      [("mu", .prior ⟨"mu", 0, 1⟩)] ⟨"mu", 0, 1⟩ (by decide) rfl).1,
   (create_distribution_roundtrip.2.2 "test"
      (.exponential "test" ⟨"mu", 0, 1⟩ (.fin 0) .inf) []).1,
   (create_distribution_roundtrip.2.1 "test" "Exponential"
      [("mu", .prior ⟨"mu", 0, 1⟩)] ⟨"mu", 0, 1⟩ (by decide) rfl).2⟩

/-- When some source table lacks the `Q22` column, extracting the observable
columns fails with the missing-observable error. -/
theorem mapE_q22_missing (data : List SampleTable)
    (hex : ∃ t ∈ data, List.lookup "Q22" t = none) :
    mapE q22Column data = .error .missingObservable := by
  induction data with
  | nil => rcases hex with ⟨t, ht, _⟩; cases ht
  | cons a as ih =>
      rcases hex with ⟨t, ht, hnone⟩
      rcases List.mem_cons.mp ht with rfl | hmem
      · simp [mapE, q22Column, hnone]
      · cases ha : List.lookup "Q22" a with
        | none => simp [mapE, q22Column, ha]
        | some col => simp [mapE, q22Column, ha, ih ⟨t, hmem, hnone⟩]

/-- C7: if any one of the per-source sample collections lacks the required
`Q22` observable column, the whole hierarchical-model construction fails with
the missing-observable error — no source is silently dropped and no
partially-built model is produced. -/
theorem mqd_missing_observable_fatal (data : List SampleTable)
    (dist : Distribution) (hex : ∃ t ∈ data, List.lookup "Q22" t = none) :
    MassQuadrupoleDistribution.build data dist none none none
      = .error .missingObservable := by
  unfold MassQuadrupoleDistribution.build
  simp [mapE_q22_missing data hex]

/-- Witness: a two-source data set whose second source lacks the `Q22`
column fails construction. -/
theorem mqd_missing_observable_fatal_witness :
    MassQuadrupoleDistribution.build
        [[("Q22", [1])], [("other", [2])]]
        (.exponential "q22" ⟨"mu", 0, 1⟩ (.fin 0) .inf) none none none
      = .error .missingObservable :=
  mqd_missing_observable_fatal [[("Q22", [1])], [("other", [2])]]
    (.exponential "q22" ⟨"mu", 0, 1⟩ (.fin 0) .inf)
    ⟨[("other", [2])], by decide, by decide⟩

/-- C1: `sample()` on a constructed hierarchical model hands the
hyper-log-likelihood together with the free-hyperparameter priors to the
configured nested-sampling backend and returns the backend's result; and at
every candidate hyperparameter point at which the population distribution's
`log_pdf` evaluates, the hyper-log-likelihood is the sum over all sources of
the log of the mean, over that source's posterior samples, of the
exponential of `log_pdf` at the sample value. -/
theorem mqd_sample_hyper_likelihood {σ ρ : Type} (m : MassQuadrupoleDistribution)
    (backend : (List (String × ℚ) → Except HierErr RExpr) → List PriorSpec → σ → ρ)
    (opts : σ) (vals : List (String × ℚ)) (f : ℚ → ExtVal)
    (hf : ∀ v, m.distribution.log_pdf vals v = .ok (f v)) :
    m.sample backend opts = backend m.loglikelihood m.distribution.freePriors opts
    ∧ m.loglikelihood vals = .ok (RExpr.sum (m.sources.map (fun samps =>
        RExpr.log (RExpr.mean (samps.map (fun v =>
          RExpr.exp (RExpr.ofVal (f v)))))))) := by
  refine ⟨rfl, ?_⟩
  unfold MassQuadrupoleDistribution.loglikelihood
  rw [mapE_ok_map (g := fun samps => RExpr.log (RExpr.mean (samps.map (fun v =>

    RExpr.exp (RExpr.ofVal (f v))))))]
  · rfl
  · intro samps
    rw [mapE_ok_map hf samps]
    simp [List.map_map, Function.comp]

/-- A concrete hierarchical model for the witness below: two sources with
one posterior sample each and an exponential population distribution. -/
def mqdExample : MassQuadrupoleDistribution :=
  ⟨[[1], [2]], .exponential "q22" ⟨"mu", 0, 1⟩ (.fin 0) .inf, "dynesty",
   .pstr "scott"⟩

/-- A concrete backend for the witness below: it records the likelihood
evaluated at `mu = 1/2` together with the priors it was handed. -/
def backendExample (ll : List (String × ℚ) → Except HierErr RExpr)
    (priors : List PriorSpec) (_ : Unit) :
    Except HierErr RExpr × List PriorSpec :=
  (ll [("mu", 1/2)], priors)

/-- The resolved log-density of the example model's distribution at
`mu = 1/2`. -/
def fExample (v : ℚ) : ExtVal :=
  if outOfBounds (.fin 0) .inf v then .negInf
  else .density ⟨"exponential", [("mu", 1/2)], .fin 0, .inf⟩ v

/-- Witness: the example model's `sample` hands its likelihood and free
prior to the backend, and its likelihood at `mu = 1/2` is the sum over the
two sources of the log-mean-exp of the resolved log-densities. -/
theorem mqd_sample_hyper_likelihood_witness :
    mqdExample.sample backendExample ()
      = backendExample mqdExample.loglikelihood
          mqdExample.distribution.freePriors ()
    ∧ mqdExample.loglikelihood [("mu", 1/2)]
      = .ok (RExpr.sum (mqdExample.sources.map (fun samps =>
          RExpr.log (RExpr.mean (samps.map (fun v =>
            RExpr.exp (RExpr.ofVal (fExample v)))))))) :=
  mqd_sample_hyper_likelihood mqdExample backendExample () [("mu", 1/2)]
    fExample (fun _ => rfl)

end Cwinpy
